import Mathlib

/-!
Shallow embedding of the Data-Analytics frontend pipeline
(`src/frontend/src/components/UploadDataset.tsx` and
`src/frontend/src/services/api.ts`) together with proofs about the
specification's claims on parsing, sanitization, CSV encoding and the
analysis-request orchestration.

JavaScript runtime values that can appear in a parsed cell are embedded as
the inductive `JSVal`.  A `Date` object is represented by the ISO-8601
string its `toISOString()` returns, and an arbitrary object/array value by
the JSON text its `JSON.stringify` returns; both methods are treated as
abstract injections, which is all the pipeline ever observes of them.
Numbers are embedded as integers; the claims under study never depend on
floating-point formatting.
-/

/-- Embedded JavaScript cell value (`any` in the TypeScript source). -/
inductive JSVal where
  | str (s : String)
  | num (n : Int)
  | bool (b : Bool)
  | null
  | undef
  | date (iso : String)
  | obj (json : String)
  deriving DecidableEq

/-- Model of JavaScript `String.prototype.trim()` at the character-list
level (strip leading and trailing whitespace).  `String.trim` of core Lean
computes the same string but does not reduce in the kernel, so the
embedding uses this equivalent executable form. -/
def jsTrim (s : String) : String :=
  String.mk (((s.data.dropWhile Char.isWhitespace).reverse.dropWhile Char.isWhitespace).reverse)

/-- Cell sanitizer from `processFile` (UploadDataset.tsx lines 36-40 and 79-83):
`cell instanceof Date ? cell.toISOString() : typeof cell === 'object' ?
JSON.stringify(cell) : cell`.  Note that in JavaScript `typeof null`
is `'object'`, so `null` is serialized by `JSON.stringify` to the
string `"null"`; `undefined` has `typeof 'undefined'` and passes through. -/
def sanitize : JSVal → JSVal
  | .date iso => .str iso
  | .null => .str "null"
  | .obj json => .str json
  | v => v

/-- The all-empty test from the row filter (UploadDataset.tsx lines 32 and 75):
a cell is "empty" when it is `null`, `undefined` or the empty string
(`cell !== null && cell !== undefined && cell !== ''` negated). -/
def isEmptyCell : JSVal → Bool
  | .null => true
  | .undef => true
  | .str s => s == ""
  | _ => false

/-- Well-formedness of an embedded runtime value: a real `Date` never has an
empty `toISOString()` and `JSON.stringify` of an object value is never the
empty string.  This rules out artefacts of the embedding that no JavaScript
value exhibits. -/
def wfCell : JSVal → Bool
  | .date iso => iso != ""
  | .obj json => json != ""
  | _ => true

/-- Post-tokenization processing shared verbatim by both ingestion paths of
`processFile` (UploadDataset.tsx lines 31-41 for CSV, 74-84 for
spreadsheets): drop the rows whose cells are all empty, then sanitize every
remaining cell. -/
def processTokRows (rows : List (List JSVal)) : List (List JSVal) :=
  (rows.filter (fun row => row.any (fun c => !isEmptyCell c))).map (fun row => row.map sanitize)

/-- Dataset produced by the spreadsheet ingestion path; the header row is the
raw first array of `sheet_to_json(..., \x7b header: 1 \x7d)`, so header cells keep
their runtime type. -/
structure SheetData where
  headers : List JSVal
  rows : List (List JSVal)
  deriving DecidableEq

/-- Spreadsheet path of `processFile` (UploadDataset.tsx lines 64-98),
starting from the array-of-arrays the XLSX decoder returns for the first
sheet: `headers = jsonData[0]`, `rows = jsonData.slice(1)`, then the shared
filter-and-sanitize post-processing.  An empty matrix is mapped to the
empty dataset (the JavaScript code would produce `undefined` headers there;
no claim evaluates that corner). -/
def sheetIngest : List (List JSVal) → SheetData
  | [] => ⟨[], []⟩
  | h :: rest => ⟨h, processTokRows rest⟩

/-- Scanner state of the CSV tokenizer: `plain` outside quotes, `quoted`
inside a quoted field, `closing` right after a quote seen inside a quoted
field (it is either the closing quote or, when another quote follows, an
escaped literal quote), `cr` right after a carriage return (so that a
following line feed is consumed as part of the same record break). -/
inductive TokSt where
  | plain
  | quoted
  | closing
  | cr
  deriving DecidableEq

/-- RFC-4180-style CSV tokenizer modelling the PapaParse decoder used by the
CSV path (UploadDataset.tsx line 26) on comma-delimited input: fields are
separated by `,`, records by `\n`, `\r\n` or `\r`; a field beginning with a
double quote is quoted, with `""` denoting a literal quote inside it; a
quote appearing after the start of an unquoted field is literal text.
Arguments: remaining input, current field, current record, finished
records, scanner state. -/
def tok : List Char → List Char → List (List Char) → List (List (List Char)) → TokSt → List (List (List Char))
  | [], field, row, acc, _ => acc ++ [row ++ [field]]
  | c :: rest, field, row, acc, .quoted =>
    if c = '"' then tok rest field row acc .closing
    else tok rest (field ++ [c]) row acc .quoted
  | c :: rest, field, row, acc, .closing =>
    if c = '"' then tok rest (field ++ ['"']) row acc .quoted
    else if c = ',' then tok rest [] (row ++ [field]) acc .plain
    else if c = '\n' then tok rest [] [] (acc ++ [row ++ [field]]) .plain
    else if c = '\r' then tok rest [] [] (acc ++ [row ++ [field]]) .cr
    else tok rest (field ++ [c]) row acc .plain
  | c :: rest, field, row, acc, .cr =>
    if c = '\n' then tok rest field row acc .plain
    else if c = ',' then tok rest [] (row ++ [field]) acc .plain
    else if c = '\r' then tok rest [] [] (acc ++ [row ++ [field]]) .cr
    else if c = '"' then
      if field = [] then tok rest field row acc .quoted
      else tok rest (field ++ [c]) row acc .plain
    else tok rest (field ++ [c]) row acc .plain
  | c :: rest, field, row, acc, .plain =>
    if c = ',' then tok rest [] (row ++ [field]) acc .plain
    else if c = '\n' then tok rest [] [] (acc ++ [row ++ [field]]) .plain
    else if c = '\r' then tok rest [] [] (acc ++ [row ++ [field]]) .cr
    else if c = '"' then
      if field = [] then tok rest field row acc .quoted
      else tok rest (field ++ [c]) row acc .plain
    else tok rest (field ++ [c]) row acc .plain

/-- Tokenize a CSV text into its records of string fields (the
`results.data` matrix PapaParse hands to the `complete` callback). -/
def parseCSVtext (text : String) : List (List String) :=
  (tok text.data [] [] [] .plain).map (fun r => r.map String.mk)

/-- Dataset produced by the CSV ingestion path: PapaParse yields string
cells, so the header row is a list of strings. -/
structure CsvData where
  headers : List String
  rows : List (List JSVal)
  deriving DecidableEq

/-- CSV path of `processFile` (UploadDataset.tsx lines 25-63):
`headers = results.data[0]`, `rows = results.data.slice(1)`, then the
shared filter-and-sanitize post-processing applied to the string cells.
As with `sheetIngest`, an empty matrix maps to the empty dataset; the
tokenizer never returns an empty matrix. -/
def csvIngest (text : String) : CsvData :=
  match parseCSVtext text with
  | [] => ⟨[], []⟩
  | h :: rest => ⟨h, processTokRows (rest.map (fun r => r.map JSVal.str))⟩

/-- Validated table shape used by the orchestrator: the `FileData` interface
of `types.ts` (`headers: string[]`, `rows: any[][]`) once the runtime null
checks of `analyzeData` have passed. -/
structure Dataset where
  headers : List String
  rows : List (List JSVal)
  deriving DecidableEq

/-- Runtime view of the `data` argument of `analyzeData`: TypeScript types
are erased, so the code defensively checks `!data.headers` and
`!data.rows`, which only an absent (null/undefined) field can trigger — an
empty array is truthy in JavaScript.  `none` in a field models that
absence. -/
structure FileData where
  headers : Option (List String)
  rows : Option (List (List JSVal))
  deriving DecidableEq

/-- Stringification of one cell inside `convertToCSVLocal` (api.ts line 205):
`typeof cell === 'object' ? JSON.stringify(cell) : String(cell)`.
A `Date` has `typeof 'object'` and `JSON.stringify` renders it as its ISO
string wrapped in JSON quotes.  The `null`/`undefined` cases are
unreachable from `encodeCell`, which returns early for them; they are given
their JavaScript values (`JSON.stringify(null) = "null"`, `String(undefined)`
never reached) to keep the function total. -/
def cellToString : JSVal → String
  | .str s => s
  | .num n => toString n
  | .bool b => cond b "true" "false"
  | .date iso => "\"" ++ iso ++ "\""
  | .obj json => json
  | .null => "null"
  | .undef => ""

/-- Character-level model of `cellStr.replace(/"/g, '""')` (api.ts line 209). -/
def escQData : List Char → List Char
  | [] => []
  | c :: cs => if c = '"' then '"' :: '"' :: escQData cs else c :: escQData cs

/-- Model of `cellStr.replace(/"/g, '""')` at the string level. -/
def escapeQuotes (s : String) : String :=
  String.mk (escQData s.data)

/-- Field encoder of `convertToCSVLocal` (api.ts lines 200-213): `null` and
`undefined` become the empty string; otherwise the cell is stringified and
wrapped in double quotes (with internal quotes doubled) exactly when it
contains a comma or a double quote. -/
def encodeCell (cell : JSVal) : String :=
  match cell with
  | .null => ""
  | .undef => ""
  | c =>
    let cellStr := cellToString c
    if cellStr.data.contains ',' || cellStr.data.contains '"' then
      "\"" ++ escapeQuotes cellStr ++ "\""
    else
      cellStr

/-- Local CSV encoder `convertToCSVLocal` (api.ts lines 192-218): join the
headers with commas (unquoted), encode every cell of every row, join fields
with commas and lines with a newline. -/
def convertToCSVLocal (data : Dataset) : String :=
  let headerRow := String.intercalate "," data.headers
  let dataRows := data.rows.map (fun row => String.intercalate "," (row.map encodeCell))
  String.intercalate "\n" (headerRow :: dataRows)

/-- String form a cell takes in the encoded CSV: the empty string for
`null`/`undefined`, `cellToString` otherwise.  `encodeCell` is exactly
quote-wrapping applied to this string. -/
def stringForm : JSVal → String
  | .null => ""
  | .undef => ""
  | c => cellToString c

/-- Quote-wrapping step of the field encoder, factored out for proofs. -/
def encodeField (s : String) : String :=
  if s.data.contains ',' || s.data.contains '"' then
    "\"" ++ escapeQuotes s ++ "\""
  else
    s

/-!
Orchestrator embedding (`src/frontend/src/services/api.ts`).  The network is
modelled by a `World` record giving the outcome of each request kind, and
`analyzeData` additionally returns the list of network requests it issued,
in order, so that claims about "no send is attempted" are expressible.
-/

/-- Message of the precondition failure `throw new Error('API key is required')`. -/
def missingCredentialMsg : String := "API key is required"

/-- Message of `throw new Error('Query is required')`. -/
def missingQueryMsg : String := "Query is required"

/-- Message of `throw new Error('Invalid or empty data file')`. -/
def invalidDatasetMsg : String := "Invalid or empty data file"

/-- Message thrown when the browser is offline or the request failed at the
network layer (api.ts lines 100 and 139): the spec's `BackendUnreachable`. -/
def backendUnreachableMsg : String :=
  "Cannot connect to the API. Please check your internet connection and make sure the backend server is running."

/-- Message for an aborted (timed out) request: the spec's `Timeout`. -/
def timeoutMsg : String := "Request timed out. Please try again."

/-- Message for HTTP 400: the spec's `InvalidRequest`. -/
def invalidRequestMsg : String := "Invalid request. Please check your query and data format."

/-- Message for HTTP 401: the spec's `InvalidCredential`. -/
def invalidCredentialMsg : String := "Invalid API key. Please check your DeepSeek API key."

/-- Message for HTTP 403: the spec's `AccessDenied`. -/
def accessDeniedMsg : String := "Access denied. Please check your API key permissions."

/-- Message for HTTP 404: the spec's `EndpointNotFound`. -/
def endpointNotFoundMsg : String :=
  "API endpoint not found. Please check if the backend server is running correctly."

/-- Message for HTTP 429: the spec's `RateLimited`. -/
def rateLimitedMsg : String := "Too many requests. Please wait a moment and try again."

/-- Message for HTTP 413: the spec's `PayloadTooLarge`. -/
def payloadTooLargeMsg : String := "Data file is too large. Please try a smaller file."

/-- Message for HTTP 500: the spec's `ServerError`. -/
def serverErrorMsg : String := "Server error. Please try again later."

/-- Message for HTTP 503: the spec's `ServiceUnavailable`. -/
def serviceUnavailableMsg : String := "Service temporarily unavailable. Please try again later."

/-- Message carrying a backend-provided `detail` field (api.ts line 167):
the spec's `ServerMessage(detail)`. -/
def serverMessageMsg (detail : String) : String := "API Error: " ++ detail

/-- Fallback message for an unmapped failure (api.ts line 170): the spec's
`UnknownFailure(status)`. -/
def unknownFailureMsg (status : Option Nat) : String :=
  "Request failed (" ++ (match status with | some n => toString n | none => "unknown status") ++ "). Please try again."

/-- Message of the final generic handler for non-axios errors (api.ts
line 181). -/
def unexpectedErrorMsg : String := "An unexpected error occurred. Please try again."

/-- Status table of the `switch (error.response?.status)` block (api.ts
lines 146-163): the message for a matched status, `none` when the switch
falls through. -/
def statusMsg (s : Nat) : Option String :=
  if s = 400 then some invalidRequestMsg
  else if s = 401 then some invalidCredentialMsg
  else if s = 403 then some accessDeniedMsg
  else if s = 404 then some endpointNotFoundMsg
  else if s = 429 then some rateLimitedMsg
  else if s = 413 then some payloadTooLargeMsg
  else if s = 500 then some serverErrorMsg
  else if s = 503 then some serviceUnavailableMsg
  else none

/-- The `detail`-field fallback of the catch block (api.ts lines 165-170):
a truthy `detail` in the response body is surfaced, otherwise the unknown
failure message with the status (or `'unknown status'`). -/
def detailFallback (detail : Option String) (status : Option Nat) : String :=
  match detail with
  | some d => if d = "" then unknownFailureMsg status else serverMessageMsg d
  | none => unknownFailureMsg status

/-- Error classification of the axios-error branch of `analyzeData`'s catch
block (api.ts lines 123-170), in source order: the browser-offline flag or
the `ERR_NETWORK` code first, then `ECONNABORTED`, then the status switch,
then the `detail` fallback.  `onLine` is `navigator.onLine`; `code` is
`error.code`; `status` is `error.response?.status` (`none` when no HTTP
response arrived); `detail` is `error.response?.data.detail`. -/
def classifyAxios (onLine : Bool) (code : Option String) (status : Option Nat) (detail : Option String) : String :=
  if onLine = false ∨ code = some "ERR_NETWORK" then backendUnreachableMsg
  else if code = some "ECONNABORTED" then timeoutMsg
  else
    match status with
    | some s =>
      match statusMsg s with
      | some m => m
      | none => detailFallback detail status
    | none => detailFallback detail status

/-- Response body of a successful `/analyze` call (the `AnalyticsResponse`
of `types.ts`); the optional visualization payload is kept opaque. -/
structure AnalyticsResp where
  answer : String
  visualization : Option String
  deriving DecidableEq

/-- Outcome of the `POST /analyze` send as seen by the caller of axios:
a 2xx response whose body is `none` models a falsy `response.data`, and
`fail` carries the observable fields of an axios error. -/
inductive SendOutcome where
  | ok (body : Option AnalyticsResp)
  | fail (onLine : Bool) (code : Option String) (status : Option Nat) (detail : Option String)
  deriving DecidableEq

/-- One network request issued by `analyzeData`, recorded with the base URL
in force when it was issued. -/
inductive NetAction where
  | getHealth (base : String)
  | postConvert (base : String)
  | postAnalyze (base : String) (payload : String)
  deriving DecidableEq

/-- Result of one `submit` call. -/
inductive Res where
  | ok (r : AnalyticsResp)
  | err (msg : String)
  deriving DecidableEq

/-- Final mutable state (`api.defaults.baseURL`), classified outcome and
request trace of one `analyzeData` call. -/
structure SubmitOut where
  finalBase : String
  outcome : Res
  trace : List NetAction
  deriving DecidableEq

/-- Behaviour of the outside world during one `analyzeData` call:
`convert` is the outcome of `POST /convert-to-csv` (`some csv` when the
backend answered with a `csv` field, `none` for any failure or malformed
body), `health` gives the result of `testBackendConnection` against a base
URL (that function never throws: every failure collapses to `false`), and
`analyze` is the outcome of `POST /analyze`. -/
structure World where
  convert : Option String
  health : String → Bool
  analyze : SendOutcome

/-- Primary base URL baked into the axios instance (api.ts line 6). -/
def primaryURL : String := "http://localhost:8000/api"

/-- Fallback base URL assigned on a failed primary probe (api.ts line 91). -/
def fallbackURL : String := "http://127.0.0.1:8000/api"

/-- Model of `convertToCSV` (api.ts lines 34-47): prefer the backend
conversion endpoint; when it fails, or its body lacks a truthy `csv` field
(the empty string is falsy), fall back to the local pure encoder. -/
def convertToCSV (conv : Option String) (data : Dataset) : String :=
  match conv with
  | some csv => if csv.isEmpty then convertToCSVLocal data else csv
  | none => convertToCSVLocal data

/-- Send phase of `analyzeData` (api.ts lines 107-121 and the catch block):
a 2xx response with a body is returned; a falsy body raises the plain
`'No data received from the API'` error which the outer catch replaces
with the generic message; an axios error is classified by
`classifyAxios`. -/
def sendAnalyze (w : World) (base : String) (payload : String) (tr : List NetAction) : SubmitOut :=
  match w.analyze with
  | .ok (some r) => ⟨base, .ok r, tr ++ [.postAnalyze base payload]⟩
  | .ok none => ⟨base, .err unexpectedErrorMsg, tr ++ [.postAnalyze base payload]⟩
  | .fail onLine code status detail =>
    ⟨base, .err (classifyAxios onLine code status detail), tr ++ [.postAnalyze base payload]⟩

/-- Embedding of `analyzeData` (api.ts lines 57-183).  Control flow of the
source, in order: the three synchronous precondition checks (note that
`!data.headers` and `!data.rows` test only for an absent field — an empty
array is truthy in JavaScript); the `convertToCSV` call (a `POST` issued
before any probing); the probe of the current base URL, on failure the
switch of `api.defaults.baseURL` to `fallbackURL` and a second probe; on a
double probe failure a plain `Error` is thrown which the outer catch — it
handles only axios errors specifically — converts to the generic
`unexpectedErrorMsg`; otherwise the single `POST /analyze`. -/
def analyzeData (w : World) (base : String) (query : String) (data : Option FileData) (apiKey : String) : SubmitOut :=
  if jsTrim apiKey = "" then ⟨base, .err missingCredentialMsg, []⟩
  else if jsTrim query = "" then ⟨base, .err missingQueryMsg, []⟩
  else
    match data with
    | none => ⟨base, .err invalidDatasetMsg, []⟩
    | some d =>
      match d.headers, d.rows with
      | none, _ => ⟨base, .err invalidDatasetMsg, []⟩
      | some _, none => ⟨base, .err invalidDatasetMsg, []⟩
      | some hs, some rs =>
        if rs.length = 0 then ⟨base, .err invalidDatasetMsg, []⟩
        else
          let payload := convertToCSV w.convert ⟨hs, rs⟩
          if w.health base then
            sendAnalyze w base payload [.postConvert base, .getHealth base]
          else if w.health fallbackURL then
            sendAnalyze w fallbackURL payload
              [.postConvert base, .getHealth base, .getHealth fallbackURL]
          else
            ⟨fallbackURL, .err unexpectedErrorMsg,
              [.postConvert base, .getHealth base, .getHealth fallbackURL]⟩

/-!
Claim theorems.  Each claim of the specification gets one theorem (plus,
where the claim fails on the code, a concrete counterexample), stated over
the embedded definitions above.
-/

/-- C5, counterexample: the claim says a `null` cell passes through the
sanitizer unchanged, but in JavaScript `typeof null` is `'object'`, so the
sanitizer serializes `null` with `JSON.stringify` to the string `"null"`. -/
theorem c5_counterexample :
    sanitize JSVal.null = JSVal.str "null" ∧ JSVal.str "null" ≠ JSVal.null :=
  ⟨rfl, by decide⟩

/-- C5, amended: the cell sanitizer is total with: a date value becomes its
ISO-8601 string; `null` and any other object-like value become their JSON
text serialization (`null` becomes the string `"null"`); strings, numbers,
booleans and `undefined` pass through unchanged. -/
theorem c5_amended_sanitizer :
    (∀ s, sanitize (JSVal.str s) = JSVal.str s) ∧
    (∀ n, sanitize (JSVal.num n) = JSVal.num n) ∧
    (∀ b, sanitize (JSVal.bool b) = JSVal.bool b) ∧
    sanitize JSVal.undef = JSVal.undef ∧
    sanitize JSVal.null = JSVal.str "null" ∧
    (∀ iso, sanitize (JSVal.date iso) = JSVal.str iso) ∧
    (∀ json, sanitize (JSVal.obj json) = JSVal.str json) :=
  ⟨fun _ => rfl, fun _ => rfl, fun _ => rfl, rfl, rfl, fun _ => rfl, fun _ => rfl⟩

/-- C7: the CSV cell encoder stringifies `null`/`undefined` to the empty
string, object-shaped values to their JSON text and everything else to its
natural string form, and it quote-wraps the field (doubling internal
quotes) exactly when the field contains a comma or a double quote; in
particular `a,b"c` encodes to `"a,b""c"` and `plain` stays `plain`. -/
theorem c7_cell_encoding :
    (encodeCell JSVal.null = "" ∧ encodeCell JSVal.undef = "") ∧
    (∀ s, cellToString (JSVal.str s) = s) ∧
    (∀ n, cellToString (JSVal.num n) = toString n) ∧
    (∀ json, cellToString (JSVal.obj json) = json) ∧
    (∀ c : JSVal, c ≠ JSVal.null → c ≠ JSVal.undef →
      ((cellToString c).data.contains ',' || (cellToString c).data.contains '"') = true →
      encodeCell c = "\"" ++ escapeQuotes (cellToString c) ++ "\"") ∧
    (∀ c : JSVal, c ≠ JSVal.null → c ≠ JSVal.undef →
      ((cellToString c).data.contains ',' || (cellToString c).data.contains '"') = false →
      encodeCell c = cellToString c) ∧
    encodeCell (JSVal.str "a,b\"c") = "\"a,b\"\"c\"" ∧
    encodeCell (JSVal.str "plain") = "plain" := by
  refine ⟨⟨rfl, rfl⟩, fun _ => rfl, fun _ => rfl, fun _ => rfl, ?_, ?_, by decide, by decide⟩
  · intro c h1 h2 hcond
    cases c <;> simp_all [encodeCell]
  · intro c h1 h2 hcond
    cases c <;> simp_all [encodeCell]

/-- C7, witness: the two concrete quoting facts, through the theorem. -/
theorem c7_cell_encoding_witness :
    encodeCell (JSVal.str "a,b\"c") = "\"a,b\"\"c\"" ∧ encodeCell (JSVal.str "plain") = "plain" :=
  ⟨c7_cell_encoding.2.2.2.2.2.2.1, c7_cell_encoding.2.2.2.2.2.2.2⟩

/-- C2, counterexample: the claim promises that HTTP 401 always maps to the
invalid-credential error, but the catch block tests `!navigator.onLine ||
error.code === 'ERR_NETWORK'` before the status switch, so with the browser
reporting offline a 401 response is classified as backend-unreachable. -/
theorem c2_counterexample :
    classifyAxios false none (some 401) none = backendUnreachableMsg ∧
    backendUnreachableMsg ≠ invalidCredentialMsg :=
  ⟨rfl, by decide⟩

/-- C2, amended: the classifier follows the claimed mapping with the
precedence of the source: browser-offline or `ERR_NETWORK` is classified
`BackendUnreachable` first (even when an HTTP status is present), then
`ECONNABORTED` is `Timeout`, then the exact status table
400/401/403/404/413/429/500/503, then a non-empty `detail` body field is
`ServerMessage(detail)`, and anything else is `UnknownFailure(status)`. -/
theorem c2_amended_mapping :
    (∀ code status detail, classifyAxios false code status detail = backendUnreachableMsg) ∧
    (∀ onLine status detail,
      classifyAxios onLine (some "ERR_NETWORK") status detail = backendUnreachableMsg) ∧
    (∀ status detail, classifyAxios true (some "ECONNABORTED") status detail = timeoutMsg) ∧
    (∀ code detail, code ≠ some "ERR_NETWORK" → code ≠ some "ECONNABORTED" →
      classifyAxios true code (some 400) detail = invalidRequestMsg ∧
      classifyAxios true code (some 401) detail = invalidCredentialMsg ∧
      classifyAxios true code (some 403) detail = accessDeniedMsg ∧
      classifyAxios true code (some 404) detail = endpointNotFoundMsg ∧
      classifyAxios true code (some 413) detail = payloadTooLargeMsg ∧
      classifyAxios true code (some 429) detail = rateLimitedMsg ∧
      classifyAxios true code (some 500) detail = serverErrorMsg ∧
      classifyAxios true code (some 503) detail = serviceUnavailableMsg) ∧
    (∀ code status d, code ≠ some "ERR_NETWORK" → code ≠ some "ECONNABORTED" →
      (∀ n ∈ [400, 401, 403, 404, 413, 429, 500, 503], status ≠ some n) → d ≠ "" →
      classifyAxios true code status (some d) = serverMessageMsg d) ∧
    (∀ code status, code ≠ some "ERR_NETWORK" → code ≠ some "ECONNABORTED" →
      (∀ n ∈ [400, 401, 403, 404, 413, 429, 500, 503], status ≠ some n) →
      classifyAxios true code status none = unknownFailureMsg status ∧
      classifyAxios true code status (some "") = unknownFailureMsg status) := by
  refine ⟨?_, ?_, ?_, ?_, ?_, ?_⟩
  · intro code status detail
    simp [classifyAxios]
  · intro onLine status detail
    simp [classifyAxios]
  · intro status detail
    simp [classifyAxios]
  · intro code detail hEN hEA
    refine ⟨?_, ?_, ?_, ?_, ?_, ?_, ?_, ?_⟩ <;> simp [classifyAxios, hEN, hEA, statusMsg]
  · intro code status d hEN hEA hst hd
    cases status with
    | none => simp [classifyAxios, hEN, hEA, detailFallback, hd]
    | some s =>
      have h1 : s ≠ 400 := fun h => hst 400 (by simp) (by rw [h])
      have h2 : s ≠ 401 := fun h => hst 401 (by simp) (by rw [h])
      have h3 : s ≠ 403 := fun h => hst 403 (by simp) (by rw [h])
      have h4 : s ≠ 404 := fun h => hst 404 (by simp) (by rw [h])
      have h5 : s ≠ 413 := fun h => hst 413 (by simp) (by rw [h])
      have h6 : s ≠ 429 := fun h => hst 429 (by simp) (by rw [h])
      have h7 : s ≠ 500 := fun h => hst 500 (by simp) (by rw [h])
      have h8 : s ≠ 503 := fun h => hst 503 (by simp) (by rw [h])
      simp [classifyAxios, hEN, hEA, statusMsg, h1, h2, h3, h4, h5, h6, h7, h8, detailFallback, hd]
  · intro code status hEN hEA hst
    cases status with
    | none => simp [classifyAxios, hEN, hEA, detailFallback]
    | some s =>
      have h1 : s ≠ 400 := fun h => hst 400 (by simp) (by rw [h])
      have h2 : s ≠ 401 := fun h => hst 401 (by simp) (by rw [h])
      have h3 : s ≠ 403 := fun h => hst 403 (by simp) (by rw [h])
      have h4 : s ≠ 404 := fun h => hst 404 (by simp) (by rw [h])
      have h5 : s ≠ 413 := fun h => hst 413 (by simp) (by rw [h])
      have h6 : s ≠ 429 := fun h => hst 429 (by simp) (by rw [h])
      have h7 : s ≠ 500 := fun h => hst 500 (by simp) (by rw [h])
      have h8 : s ≠ 503 := fun h => hst 503 (by simp) (by rw [h])
      simp [classifyAxios, hEN, hEA, statusMsg, h1, h2, h3, h4, h5, h6, h7, h8, detailFallback]

/-- C2, witness: the 401 row of the table through the amended theorem. -/
theorem c2_amended_mapping_witness :
    classifyAxios true none (some 401) none = invalidCredentialMsg :=
  (c2_amended_mapping.2.2.2.1 none none (by decide) (by decide)).2.1

/-- C3, counterexample: the claim says an empty headers sequence fails with
the invalid-dataset error, but the guard `!data.headers` only detects an
absent field — an empty array is truthy in JavaScript — so a dataset with
empty headers and one row passes validation and the call proceeds. -/
theorem c3_counterexample :
    (analyzeData ⟨none, fun _ => true, .ok (some ⟨"ans", none⟩)⟩ primaryURL "q"
        (some ⟨some [], some [[JSVal.str "x"]]⟩) "k").outcome = Res.ok ⟨"ans", none⟩ ∧
    Res.ok (⟨"ans", none⟩ : AnalyticsResp) ≠ Res.err invalidDatasetMsg :=
  ⟨by decide, by decide⟩

/-- C3, amended: a blank credential fails with `MissingCredential`, then a
blank query with `MissingQuery`, then a null dataset, an absent headers
field, an absent rows field or zero rows with `InvalidDataset`; each of
these failures is synchronous, with an empty request trace (no encoding
request, no probe, no send).  An empty-but-present headers sequence is not
rejected. -/
theorem c3_amended_preconditions :
    ∀ (w : World) (base query apiKey : String) (data : Option FileData),
      (jsTrim apiKey = "" →
        analyzeData w base query data apiKey = ⟨base, .err missingCredentialMsg, []⟩) ∧
      (jsTrim apiKey ≠ "" → jsTrim query = "" →
        analyzeData w base query data apiKey = ⟨base, .err missingQueryMsg, []⟩) ∧
      (jsTrim apiKey ≠ "" → jsTrim query ≠ "" →
        (data = none ∨ ∃ d, data = some d ∧ (d.headers = none ∨ d.rows = none ∨ d.rows = some [])) →
        analyzeData w base query data apiKey = ⟨base, .err invalidDatasetMsg, []⟩) := by
  intro w base query apiKey data
  refine ⟨?_, ?_, ?_⟩
  · intro hk
    simp [analyzeData, hk]
  · intro hk hq
    simp [analyzeData, hk, hq]
  · intro hk hq hd
    rcases hd with rfl | ⟨d, rfl, hcase⟩
    · simp [analyzeData, hk, hq]
    · obtain ⟨hdrs, rws⟩ := d
      rcases hcase with h | h | h <;> cases hdrs <;> cases rws <;> simp_all [analyzeData, hk, hq]

/-- C3, witness: the three precondition failures at concrete inputs, through
the amended theorem. -/
theorem c3_amended_preconditions_witness :
    analyzeData ⟨none, fun _ => true, .ok none⟩ primaryURL "q" none " "
      = ⟨primaryURL, .err missingCredentialMsg, []⟩ ∧
    analyzeData ⟨none, fun _ => true, .ok none⟩ primaryURL " " none "k"
      = ⟨primaryURL, .err missingQueryMsg, []⟩ ∧
    analyzeData ⟨none, fun _ => true, .ok none⟩ primaryURL "q" (some ⟨some ["h"], some []⟩) "k"
      = ⟨primaryURL, .err invalidDatasetMsg, []⟩ :=
  ⟨(c3_amended_preconditions ⟨none, fun _ => true, .ok none⟩ primaryURL "q" " " none).1 (by decide),
   (c3_amended_preconditions ⟨none, fun _ => true, .ok none⟩ primaryURL " " "k" none).2.1
     (by decide) (by decide),
   (c3_amended_preconditions ⟨none, fun _ => true, .ok none⟩ primaryURL "q" "k"
       (some ⟨some ["h"], some []⟩)).2.2 (by decide) (by decide)
     (Or.inr ⟨_, rfl, Or.inr (Or.inr rfl)⟩)⟩

/-- C8: in both ingestion paths (which share `processTokRows` on the
tokenized data rows), a data row whose cells are all empty string, null or
undefined never appears in the resulting dataset, and every data row with
at least one other cell value is kept, in original order (the kept rows
form a sublist, sanitized cell-wise).  The well-formedness hypothesis only
excludes embedding artefacts (a `Date` with an empty ISO string or an
object with empty JSON text, which no JavaScript value produces). -/
theorem c8_all_empty_row_elision :
    ∀ (rows : List (List JSVal)),
      (∀ r ∈ rows, ∀ c ∈ r, wfCell c = true) →
      (∀ h, (sheetIngest (h :: rows)).rows = processTokRows rows) ∧
      (∀ text h rest, parseCSVtext text = h :: rest →
        (csvIngest text).rows = processTokRows (rest.map (fun r => r.map JSVal.str))) ∧
      (∀ r' ∈ processTokRows rows, ∃ c' ∈ r', isEmptyCell c' = false) ∧
      (∀ r ∈ rows, (∃ c ∈ r, isEmptyCell c = false) → r.map sanitize ∈ processTokRows rows) ∧
      (rows.filter (fun r => r.any (fun c => !isEmptyCell c))).Sublist rows ∧
      processTokRows rows
        = (rows.filter (fun r => r.any (fun c => !isEmptyCell c))).map (fun r => r.map sanitize) := by
  intro rows hwf
  refine ⟨fun h => rfl, ?_, ?_, ?_, List.filter_sublist rows, rfl⟩
  · intro text h rest heq
    simp [csvIngest, heq]
  · intro r' hr'
    obtain ⟨r, hrf, rfl⟩ := List.mem_map.mp hr'
    obtain ⟨hrm, hp⟩ := List.mem_filter.mp hrf
    obtain ⟨c, hcm, hc⟩ := List.any_eq_true.mp hp
    refine ⟨sanitize c, List.mem_map_of_mem _ hcm, ?_⟩
    have hwfc := hwf r hrm c hcm
    cases c <;> simp_all [sanitize, isEmptyCell, wfCell]
  · intro r hrm ⟨c, hcm, hc⟩
    refine List.mem_map_of_mem _ (List.mem_filter.mpr ⟨hrm, ?_⟩)
    exact List.any_eq_true.mpr ⟨c, hcm, by simp [hc]⟩

/-- C8, witness: a matrix with an all-empty row and a mixed row, through the
theorem. -/
theorem c8_all_empty_row_elision_witness :
    processTokRows [[JSVal.null, JSVal.str "", JSVal.undef], [JSVal.str "x", JSVal.null]]
      = [[JSVal.str "x", JSVal.str "null"]] ∧
    (∀ r' ∈ processTokRows [[JSVal.null, JSVal.str "", JSVal.undef], [JSVal.str "x", JSVal.null]],
      ∃ c' ∈ r', isEmptyCell c' = false) :=
  ⟨by decide,
   (c8_all_empty_row_elision [[JSVal.null, JSVal.str "", JSVal.undef], [JSVal.str "x", JSVal.null]]
      (by decide)).2.2.1⟩

/-- C10: both ingestion paths take the dataset headers verbatim from the
first tokenized row: the spreadsheet path returns the raw first array
(header cells are not sanitized — a date-valued header stays a date value)
and the CSV path returns the first parsed record; the header row is never
dropped by the all-empty-row filter, even when every header cell is
empty. -/
theorem c10_headers_verbatim :
    (∀ (h : List JSVal) (rest : List (List JSVal)), (sheetIngest (h :: rest)).headers = h) ∧
    (∀ (text : String) (h : List String) (rest : List (List String)),
      parseCSVtext text = h :: rest → (csvIngest text).headers = h) ∧
    (sheetIngest [[JSVal.date "1999-01-01T00:00:00.000Z", JSVal.str "", JSVal.null]]).headers
      = [JSVal.date "1999-01-01T00:00:00.000Z", JSVal.str "", JSVal.null] ∧
    sanitize (JSVal.date "1999-01-01T00:00:00.000Z") ≠ JSVal.date "1999-01-01T00:00:00.000Z" ∧
    (sheetIngest [[JSVal.str "", JSVal.null], [JSVal.str "x"]]).headers = [JSVal.str "", JSVal.null] := by
  refine ⟨fun h rest => rfl, ?_, rfl, by decide, rfl⟩
  intro text h rest heq
  simp [csvIngest, heq]

/-- C10, witness: the CSV-path conjunct at a concrete file. -/
theorem c10_headers_verbatim_witness :
    (csvIngest "a,b\nc").headers = ["a", "b"] :=
  c10_headers_verbatim.2.1 "a,b\nc" ["a", "b"] [["c"]] (by decide)

/-- C1, counterexample: with both probes failing, the call does fail without
any `/analyze` POST (the trace stops after the two health probes), but the
surfaced error is the generic unexpected-error message, not the
backend-unreachable classification: the `throw new Error('Cannot connect to
the backend API...')` of the probe block is a plain `Error`, so the outer
catch — whose specific handling only covers axios errors — replaces it with
the generic message. -/
theorem c1_counterexample :
    analyzeData ⟨none, fun _ => false, .ok none⟩ primaryURL "q"
        (some ⟨some ["h"], some [[JSVal.str "y"]]⟩) "k"
      = ⟨fallbackURL, .err unexpectedErrorMsg,
          [.postConvert primaryURL, .getHealth primaryURL, .getHealth fallbackURL]⟩ ∧
    unexpectedErrorMsg ≠ backendUnreachableMsg :=
  ⟨by decide, by decide⟩

/-- C1, amended: when the probe of the active endpoint fails and the probe
of the fallback endpoint also fails, `analyzeData` fails with the generic
unexpected-error message (not the backend-unreachable classification) and
never attempts the POST to `/analyze`: the request trace contains exactly
the conversion request and the two health probes. -/
theorem c1_amended_double_probe_failure :
    ∀ (w : World) (base query apiKey : String) (hs : List String) (rs : List (List JSVal)),
      jsTrim apiKey ≠ "" → jsTrim query ≠ "" → rs ≠ [] →
      w.health base = false → w.health fallbackURL = false →
      analyzeData w base query (some ⟨some hs, some rs⟩) apiKey
        = ⟨fallbackURL, .err unexpectedErrorMsg,
            [.postConvert base, .getHealth base, .getHealth fallbackURL]⟩ := by
  intro w base query apiKey hs rs hk hq hrs hb hfb
  simp [analyzeData, hk, hq, List.length_eq_zero, hrs, hb, hfb]

/-- C1, witness: the amended theorem at a concrete dead world. -/
theorem c1_amended_double_probe_failure_witness :
    analyzeData ⟨none, fun _ => false, .ok none⟩ primaryURL "query"
        (some ⟨some ["a", "b"], some [[JSVal.num 1, JSVal.num 2]]⟩) "key"
      = ⟨fallbackURL, .err unexpectedErrorMsg,
          [.postConvert primaryURL, .getHealth primaryURL, .getHealth fallbackURL]⟩ :=
  c1_amended_double_probe_failure ⟨none, fun _ => false, .ok none⟩ primaryURL "query" "key"
    ["a", "b"] [[JSVal.num 1, JSVal.num 2]] (by decide) (by decide) (by decide) rfl rfl

/-- C4, counterexample: the claim says the `data.csv` payload is exactly the
pure local encoder's output, but `convertToCSV` first asks the backend
`/convert-to-csv` endpoint and uses its answer when it carries a truthy
`csv` field; here the backend answers `"X"` and the sent payload is `"X"`,
not the local encoding of the dataset. -/
theorem c4_counterexample :
    (analyzeData ⟨some "X", fun _ => true, .ok (some ⟨"a", none⟩)⟩ primaryURL "q"
        (some ⟨some ["h"], some [[JSVal.str "y"]]⟩) "k").trace
      = [.postConvert primaryURL, .getHealth primaryURL, .postAnalyze primaryURL "X"] ∧
    "X" ≠ convertToCSVLocal ⟨["h"], [[JSVal.str "y"]]⟩ :=
  ⟨by decide, by decide⟩

/-- C4, amended: for a call that passes its preconditions and whose first
probe succeeds, the file payload of the `/analyze` POST is the backend
conversion when `/convert-to-csv` answered with a truthy `csv` field, and
the output of the pure local encoder `convertToCSVLocal` applied to the
dataset otherwise; only in the fallback case is the payload a function of
the dataset alone. -/
theorem c4_amended_payload :
    ∀ (w : World) (base query apiKey : String) (hs : List String) (rs : List (List JSVal)),
      jsTrim apiKey ≠ "" → jsTrim query ≠ "" → rs ≠ [] →
      w.health base = true →
      (analyzeData w base query (some ⟨some hs, some rs⟩) apiKey).trace
        = [.postConvert base, .getHealth base,
           .postAnalyze base (convertToCSV w.convert ⟨hs, rs⟩)] ∧
      (w.convert = none → convertToCSV w.convert ⟨hs, rs⟩ = convertToCSVLocal ⟨hs, rs⟩) ∧
      (∀ csv, w.convert = some csv → csv ≠ "" → convertToCSV w.convert ⟨hs, rs⟩ = csv) := by
  intro w base query apiKey hs rs hk hq hrs hb
  refine ⟨?_, ?_, ?_⟩
  · cases hA : w.analyze with
    | ok body =>
      cases body <;>
        simp [analyzeData, hk, hq, List.length_eq_zero, hrs, hb, sendAnalyze, hA]
    | fail onl code st det =>
      simp [analyzeData, hk, hq, List.length_eq_zero, hrs, hb, sendAnalyze, hA]
  · intro hc
    simp [convertToCSV, hc]
  · intro csv hc hne
    simp [convertToCSV, hc, String.isEmpty_iff, hne]

/-- C4, witness: the amended theorem at a concrete world whose conversion
backend is unavailable, so the payload is the local pure encoding. -/
theorem c4_amended_payload_witness :
    (analyzeData ⟨none, fun _ => true, .ok (some ⟨"a", none⟩)⟩ primaryURL "q"
        (some ⟨some ["h"], some [[JSVal.str "y"]]⟩) "k").trace
      = [.postConvert primaryURL, .getHealth primaryURL,
         .postAnalyze primaryURL (convertToCSV none ⟨["h"], [[JSVal.str "y"]]⟩)] ∧
    convertToCSV none ⟨["h"], [[JSVal.str "y"]]⟩ = convertToCSVLocal ⟨["h"], [[JSVal.str "y"]]⟩ :=
  ⟨(c4_amended_payload ⟨none, fun _ => true, .ok (some ⟨"a", none⟩)⟩ primaryURL "q" "k"
      ["h"] [[JSVal.str "y"]] (by decide) (by decide) (by decide) rfl).1,
   (c4_amended_payload ⟨none, fun _ => true, .ok (some ⟨"a", none⟩)⟩ primaryURL "q" "k"
      ["h"] [[JSVal.str "y"]] (by decide) (by decide) (by decide) rfl).2.1 rfl⟩

/-- C9: when the probe of the primary endpoint fails and the probe of the
fallback succeeds, the call completes using the fallback (the `/analyze`
POST goes to the fallback address), the stored active endpoint
(`api.defaults.baseURL`) becomes the fallback, and a subsequent call
starting from that stored state probes and sends against the fallback
first — the selection persists across calls. -/
theorem c9_fallback_persistence :
    ∀ (w : World) (query apiKey : String) (hs : List String) (rs : List (List JSVal))
      (r : AnalyticsResp),
      jsTrim apiKey ≠ "" → jsTrim query ≠ "" → rs ≠ [] →
      w.health primaryURL = false → w.health fallbackURL = true →
      w.analyze = .ok (some r) →
      analyzeData w primaryURL query (some ⟨some hs, some rs⟩) apiKey
        = ⟨fallbackURL, .ok r,
            [.postConvert primaryURL, .getHealth primaryURL, .getHealth fallbackURL,
             .postAnalyze fallbackURL (convertToCSV w.convert ⟨hs, rs⟩)]⟩ ∧
      (∀ (w2 : World) (r2 : AnalyticsResp),
        w2.health fallbackURL = true → w2.analyze = .ok (some r2) →
        analyzeData w2 fallbackURL query (some ⟨some hs, some rs⟩) apiKey
          = ⟨fallbackURL, .ok r2,
              [.postConvert fallbackURL, .getHealth fallbackURL,
               .postAnalyze fallbackURL (convertToCSV w2.convert ⟨hs, rs⟩)]⟩) := by
  intro w query apiKey hs rs r hk hq hrs hb hfb hA
  constructor
  · simp [analyzeData, hk, hq, List.length_eq_zero, hrs, hb, hfb, sendAnalyze, hA]
  · intro w2 r2 h2 hA2
    simp [analyzeData, hk, hq, List.length_eq_zero, hrs, h2, sendAnalyze, hA2]

/-- C9, witness: a world whose primary is dead and fallback alive; the first
call completes on the fallback and the follow-up call probes the fallback
first. -/
theorem c9_fallback_persistence_witness :
    analyzeData ⟨none, fun b => b == fallbackURL, .ok (some ⟨"a", none⟩)⟩ primaryURL "q"
        (some ⟨some ["h"], some [[JSVal.str "y"]]⟩) "k"
      = ⟨fallbackURL, .ok ⟨"a", none⟩,
          [.postConvert primaryURL, .getHealth primaryURL, .getHealth fallbackURL,
           .postAnalyze fallbackURL (convertToCSV none ⟨["h"], [[JSVal.str "y"]]⟩)]⟩ ∧
    analyzeData ⟨none, fun b => b == fallbackURL, .ok (some ⟨"a", none⟩)⟩ fallbackURL "q"
        (some ⟨some ["h"], some [[JSVal.str "y"]]⟩) "k"
      = ⟨fallbackURL, .ok ⟨"a", none⟩,
          [.postConvert fallbackURL, .getHealth fallbackURL,
           .postAnalyze fallbackURL (convertToCSV none ⟨["h"], [[JSVal.str "y"]]⟩)]⟩ :=
  ⟨(c9_fallback_persistence ⟨none, fun b => b == fallbackURL, .ok (some ⟨"a", none⟩)⟩ "q" "k"
      ["h"] [[JSVal.str "y"]] ⟨"a", none⟩ (by decide) (by decide) (by decide) (by decide)
      (by decide) rfl).1,
   (c9_fallback_persistence ⟨none, fun b => b == fallbackURL, .ok (some ⟨"a", none⟩)⟩ "q" "k"
      ["h"] [[JSVal.str "y"]] ⟨"a", none⟩ (by decide) (by decide) (by decide) (by decide)
      (by decide) rfl).2 ⟨none, fun b => b == fallbackURL, .ok (some ⟨"a", none⟩)⟩ ⟨"a", none⟩
      (by decide) rfl⟩

/-!
Round-trip machinery for C6: scanning lemmas for the tokenizer over encoded
fields, records and whole texts.
-/

/-- Characters of a concatenation of strings. -/
theorem strDataAppend (a b : String) : (a ++ b).data = a.data ++ b.data := by
  cases a
  cases b
  rfl

/-- Accumulator lemma for the worker of `String.intercalate`. -/
theorem interGo (sep : String) (l : List String) :
    ∀ (x y : String), String.intercalate.go (x ++ y) sep l = x ++ String.intercalate.go y sep l := by
  induction l with
  | nil => intro x y; rfl
  | cons a as ih =>
    intro x y
    have h2 : String.intercalate.go y sep (a :: as) = String.intercalate.go (y ++ sep ++ a) sep as := rfl
    have h3 : x ++ y ++ sep ++ a = x ++ (y ++ sep ++ a) := by
      simp [String.append_assoc]
    show String.intercalate.go (x ++ y ++ sep ++ a) sep as = x ++ String.intercalate.go y sep (a :: as)
    rw [h2, h3]
    exact ih x (y ++ sep ++ a)

/-- Unfolding of `String.intercalate` on a list with at least two elements. -/
theorem interCons (sep a b : String) (l : List String) :
    String.intercalate sep (a :: b :: l) = a ++ sep ++ String.intercalate sep (b :: l) := by
  have h1 : String.intercalate sep (a :: b :: l) = String.intercalate.go (a ++ sep ++ b) sep l := rfl
  have h2 : String.intercalate sep (b :: l) = String.intercalate.go b sep l := rfl
  rw [h1, h2]
  exact interGo sep l (a ++ sep) b

/-- Scanning a run of ordinary characters in plain state appends them to the
current field. -/
theorem tok_plain_scan (cs : List Char)
    (h : ∀ c ∈ cs, c ≠ ',' ∧ c ≠ '\n' ∧ c ≠ '\r' ∧ c ≠ '"') :
    ∀ (rest field : List Char) row acc,
      tok (cs ++ rest) field row acc .plain = tok rest (field ++ cs) row acc .plain := by
  induction cs with
  | nil => intro rest field row acc; simp
  | cons c cs ih =>
    intro rest field row acc
    obtain ⟨h1, h2, h3, h4⟩ := h c (by simp)
    have hcs : ∀ c' ∈ cs, c' ≠ ',' ∧ c' ≠ '\n' ∧ c' ≠ '\r' ∧ c' ≠ '"' :=
      fun c' hc' => h c' (by simp [hc'])
    rw [List.cons_append]
    simp only [tok, if_neg h1, if_neg h2, if_neg h3, if_neg h4]
    rw [ih hcs]
    simp

/-- Scanning the quote-escaped body of a quoted field appends the raw body to
the current field and stops at the closing quote. -/
theorem tok_quoted_scan (cs : List Char) :
    ∀ (rest field : List Char) row acc,
      tok (escQData cs ++ '"' :: rest) field row acc .quoted
        = tok rest (field ++ cs) row acc .closing := by
  induction cs with
  | nil =>
    intro rest field row acc
    simp [escQData, tok]
  | cons c cs ih =>
    intro rest field row acc
    by_cases hc : c = '"'
    · subst hc
      have he : escQData ('"' :: cs) = '"' :: '"' :: escQData cs := by simp [escQData]
      rw [he, List.cons_append, List.cons_append]
      have t1 : tok ('"' :: '"' :: (escQData cs ++ '"' :: rest)) field row acc .quoted
          = tok (escQData cs ++ '"' :: rest) (field ++ ['"']) row acc .quoted := by
        simp [tok]
      rw [t1, ih]
      simp
    · have he : escQData (c :: cs) = c :: escQData cs := by simp [escQData, hc]
      rw [he, List.cons_append]
      have t1 : tok (c :: (escQData cs ++ '"' :: rest)) field row acc .quoted
          = tok (escQData cs ++ '"' :: rest) (field ++ [c]) row acc .quoted := by
        simp [tok, hc]
      rw [t1, ih]
      simp

/-- After a closing quote, when the next character is not another quote, the
scanner behaves exactly as in plain state. -/
theorem tok_closing_eq_plain (rest : List Char) (h : rest.head? ≠ some '"') :
    ∀ field row acc, tok rest field row acc .closing = tok rest field row acc .plain := by
  cases rest with
  | nil => intro field row acc; rfl
  | cons c cs =>
    intro field row acc
    have hc : c ≠ '"' := by simpa using h
    by_cases h1 : c = ','
    · subst h1; simp [tok]
    · by_cases h2 : c = '\n'
      · subst h2; simp [tok]
      · by_cases h3 : c = '\r'
        · subst h3; simp [tok]
        · simp [tok, hc, h1, h2, h3]

/-- Negative containment of a character, from its absence in the list. -/
theorem containsFalse (l : List Char) (c : Char) (h : c ∉ l) : l.contains c = false := by
  simpa [List.contains] using h

/-- Absence in the list, from negative containment. -/
theorem notMem_of_contains_false (l : List Char) (c : Char) (h : l.contains c = false) : c ∉ l := by
  simpa [List.contains] using h

/-- Scanning one encoded field from the start of a field position consumes it
and leaves the raw field text accumulated, for any continuation that does
not begin with a quote. -/
theorem tok_field_scan (s : String) (hctl : '\n' ∉ s.data ∧ '\r' ∉ s.data)
    (rest : List Char) (hrest : rest.head? ≠ some '"') :
    ∀ row acc, tok ((encodeField s).data ++ rest) [] row acc .plain
      = tok rest s.data row acc .plain := by
  intro row acc
  by_cases hq : (s.data.contains ',' || s.data.contains '"') = true
  · have hdata : (encodeField s).data = '"' :: (escQData s.data ++ ['"']) := by
      simp only [encodeField, if_pos hq]
      rw [strDataAppend, strDataAppend]
      rfl
    rw [hdata]
    have hnorm : ('"' :: (escQData s.data ++ ['"'])) ++ rest
        = '"' :: (escQData s.data ++ '"' :: rest) := by simp
    rw [hnorm]
    have t1 : tok ('"' :: (escQData s.data ++ '"' :: rest)) [] row acc .plain
        = tok (escQData s.data ++ '"' :: rest) [] row acc .quoted := by
      simp [tok]
    rw [t1, tok_quoted_scan, List.nil_append]
    exact tok_closing_eq_plain rest hrest s.data row acc
  · have hnq : (s.data.contains ',' || s.data.contains '"') = false := by
      simpa using hq
    have hc1 : s.data.contains ',' = false := by
      cases hcc : s.data.contains ',' <;> simp_all
    have hc2 : s.data.contains '"' = false := by
      cases hcc : s.data.contains '"' <;> simp_all
    have heq : encodeField s = s := by
      unfold encodeField
      rw [hc1, hc2]
      rfl
    rw [heq]
    have hmem : ∀ c ∈ s.data, c ≠ ',' ∧ c ≠ '\n' ∧ c ≠ '\r' ∧ c ≠ '"' := by
      intro c hc
      refine ⟨?_, ?_, ?_, ?_⟩ <;> intro hcontra <;> subst hcontra
      · exact notMem_of_contains_false s.data ',' hc1 hc
      · exact hctl.1 hc
      · exact hctl.2 hc
      · exact notMem_of_contains_false s.data '"' hc2 hc
    rw [tok_plain_scan s.data hmem rest [] row acc, List.nil_append]

/-- Line text of one record: every field encoded, joined with commas. -/
def lineOf (fields : List String) : String :=
  String.intercalate "," (fields.map encodeField)

/-- Scanning one encoded record followed by a newline flushes exactly that
record (its raw fields) onto the accumulator. -/
theorem tok_record_newline (fields : List String) :
    ∀ (T : List Char) row acc, fields ≠ [] →
      (∀ f ∈ fields, '\n' ∉ f.data ∧ '\r' ∉ f.data) →
      tok ((lineOf fields).data ++ '\n' :: T) [] row acc .plain
        = tok T [] [] (acc ++ [row ++ fields.map (fun f => f.data)]) .plain := by
  induction fields with
  | nil => intro T row acc h; exact absurd rfl h
  | cons f0 fs ih =>
    intro T row acc _ hctl
    cases fs with
    | nil =>
      rw [show lineOf [f0] = encodeField f0 from rfl,
        tok_field_scan f0 (hctl f0 (by simp)) ('\n' :: T) (by simp)]
      have hnl : ('\n' : Char) ≠ ',' := by decide
      simp [tok, hnl]
    | cons f1 fs' =>
      have hline : lineOf (f0 :: f1 :: fs') = encodeField f0 ++ "," ++ lineOf (f1 :: fs') := by
        simp only [lineOf, List.map_cons]
        exact interCons "," (encodeField f0) (encodeField f1) (fs'.map encodeField)
      rw [hline, strDataAppend, strDataAppend]
      rw [show ("," : String).data = [','] from rfl, List.append_assoc, List.append_assoc]
      rw [List.cons_append, List.nil_append]
      rw [tok_field_scan f0 (hctl f0 (by simp)) _ (by simp)]
      simp only [tok, if_pos rfl]
      rw [ih T (row ++ [f0.data]) acc (by simp) (fun f hf => hctl f (by simp [hf]))]
      simp

/-- Scanning one encoded record at the end of the input flushes exactly that
record onto the accumulator. -/
theorem tok_record_end (fields : List String) :
    ∀ row acc, fields ≠ [] →
      (∀ f ∈ fields, '\n' ∉ f.data ∧ '\r' ∉ f.data) →
      tok (lineOf fields).data [] row acc .plain
        = acc ++ [row ++ fields.map (fun f => f.data)] := by
  induction fields with
  | nil => intro row acc h; exact absurd rfl h
  | cons f0 fs ih =>
    intro row acc _ hctl
    cases fs with
    | nil =>
      have := tok_field_scan f0 (hctl f0 (by simp)) [] (by simp) row acc
      rw [List.append_nil] at this
      rw [show lineOf [f0] = encodeField f0 from rfl, this]
      simp [tok]
    | cons f1 fs' =>
      have hline : lineOf (f0 :: f1 :: fs') = encodeField f0 ++ "," ++ lineOf (f1 :: fs') := by
        simp only [lineOf, List.map_cons]
        exact interCons "," (encodeField f0) (encodeField f1) (fs'.map encodeField)
      rw [hline, strDataAppend, strDataAppend]
      rw [show ("," : String).data = [','] from rfl, List.append_assoc, List.cons_append,
        List.nil_append]
      rw [tok_field_scan f0 (hctl f0 (by simp)) _ (by simp)]
      simp only [tok, if_pos rfl]
      rw [ih (row ++ [f0.data]) acc (by simp) (fun f hf => hctl f (by simp [hf]))]
      simp

/-- Scanning a whole encoded text yields exactly its records. -/
theorem tok_text (records : List (List String)) :
    ∀ acc, records ≠ [] → (∀ r ∈ records, r ≠ []) →
      (∀ r ∈ records, ∀ f ∈ r, '\n' ∉ f.data ∧ '\r' ∉ f.data) →
      tok (String.intercalate "\n" (records.map lineOf)).data [] [] acc .plain
        = acc ++ records.map (fun r => r.map (fun f => f.data)) := by
  induction records with
  | nil => intro acc h; exact absurd rfl h
  | cons r0 rs ih =>
    intro acc _ hne hctl
    cases rs with
    | nil =>
      rw [show String.intercalate "\n" ([r0].map lineOf) = lineOf r0 from rfl]
      rw [tok_record_end r0 [] acc (hne r0 (by simp)) (hctl r0 (by simp))]
      simp
    | cons r1 rs' =>
      have hline : String.intercalate "\n" ((r0 :: r1 :: rs').map lineOf)
          = lineOf r0 ++ "\n" ++ String.intercalate "\n" ((r1 :: rs').map lineOf) := by
        simp only [List.map_cons]
        exact interCons "\n" (lineOf r0) (lineOf r1) (rs'.map lineOf)
      rw [hline, strDataAppend, strDataAppend]
      rw [show ("\n" : String).data = ['\n'] from rfl, List.append_assoc, List.cons_append,
        List.nil_append]
      rw [tok_record_newline r0 _ [] acc (hne r0 (by simp)) (hctl r0 (by simp))]
      simp only [List.nil_append]
      rw [ih (acc ++ [r0.map (fun f => f.data)]) (by simp)
        (fun r hr => hne r (by simp [hr])) (fun r hr => hctl r (by simp [hr]))]
      simp

/-- The cell encoder is quote-wrapping applied to the cell's string form. -/
theorem encodeCell_eq (c : JSVal) : encodeCell c = encodeField (stringForm c) := by
  cases c <;> rfl

/-- Mapping a function that is the identity on all members. -/
theorem map_id_of {α : Type} (l : List α) (f : α → α) (h : ∀ a ∈ l, f a = a) : l.map f = l := by
  induction l with
  | nil => rfl
  | cons a as ih =>
    rw [List.map_cons, h a (by simp), ih (fun a' ha' => h a' (by simp [ha']))]

/-- Scalar cell shapes in the sense of the data model: string, number,
boolean, null, plus the undefined that downstream treats like null. -/
def isScalar : JSVal → Bool
  | .str _ => true
  | .num _ => true
  | .bool _ => true
  | .null => true
  | .undef => true
  | _ => false

/-- C6, counterexample: a dataset whose cells are all scalars with no
control characters, but whose single header contains a comma.  Headers are
joined unquoted by the encoder, so parsing the encoded text splits the
header in two: the round trip does not preserve the headers. -/
theorem c6_counterexample :
    (csvIngest (convertToCSVLocal ⟨["a,b"], [[JSVal.str "x"]]⟩)).headers = ["a", "b"] ∧
    (["a", "b"] : List String) ≠ ["a,b"] :=
  ⟨by decide, by decide⟩

/-- C6, amended: the claimed round trip holds once the shapes the encoder
cannot protect are excluded: the headers are non-empty and contain no
comma, quote or control character (the encoder writes them unquoted), every
cell is a scalar whose string form contains no control character, and every
row has at least one cell with a non-empty string form (an all-empty row
would be dropped by the elision filter on re-parse).  Under these
conditions parsing the encoded text yields exactly the original headers and
every cell as the string form of the original cell. -/
theorem c6_amended_roundtrip :
    ∀ (D : Dataset),
      D.headers ≠ [] →
      (∀ h ∈ D.headers, ',' ∉ h.data ∧ '"' ∉ h.data ∧ '\n' ∉ h.data ∧ '\r' ∉ h.data) →
      (∀ row ∈ D.rows, ∀ c ∈ row,
        isScalar c = true ∧ '\n' ∉ (stringForm c).data ∧ '\r' ∉ (stringForm c).data) →
      (∀ row ∈ D.rows, ∃ c ∈ row, stringForm c ≠ "") →
      csvIngest (convertToCSVLocal D)
        = ⟨D.headers, D.rows.map (fun row => row.map (fun c => JSVal.str (stringForm c)))⟩ := by
  intro D hne hh hcell hrow
  obtain ⟨hs, rows⟩ := D
  simp only at hne hh hcell hrow
  have hfield : ∀ h ∈ hs, encodeField h = h := by
    intro h hmem
    unfold encodeField
    rw [containsFalse _ _ (hh h hmem).1, containsFalse _ _ (hh h hmem).2.1]
    rfl
  have hhdr : lineOf hs = String.intercalate "," hs := by
    unfold lineOf
    rw [map_id_of hs encodeField hfield]
  have hrowline : ∀ row ∈ rows,
      String.intercalate "," (row.map encodeCell) = lineOf (row.map stringForm) := by
    intro row _
    unfold lineOf
    rw [List.map_map]
    exact congrArg (String.intercalate ",") (List.map_congr_left (fun c _ => encodeCell_eq c))
  have henc : convertToCSVLocal ⟨hs, rows⟩
      = String.intercalate "\n" ((hs :: rows.map (fun row => row.map stringForm)).map lineOf) := by
    unfold convertToCSVLocal
    simp only [List.map_cons, List.map_map]
    congr 1
    have h1 : String.intercalate "," hs = lineOf hs := hhdr.symm
    have h2 : rows.map (fun row => String.intercalate "," (row.map encodeCell))
        = rows.map (lineOf ∘ fun row => row.map stringForm) :=
      List.map_congr_left (fun row hmem => hrowline row hmem)
    rw [h1, h2]
  have hrec_ne : (hs :: rows.map (fun row => row.map stringForm)) ≠ [] := by simp
  have hrec_each : ∀ r ∈ hs :: rows.map (fun row => row.map stringForm), r ≠ [] := by
    intro r hr
    rcases List.mem_cons.mp hr with rfl | hr
    · exact hne
    · obtain ⟨row, hmem, rfl⟩ := List.mem_map.mp hr
      obtain ⟨c, hc, _⟩ := hrow row hmem
      intro hnil
      rw [List.map_eq_nil_iff.mp hnil] at hc
      simp at hc
  have hrec_ctl : ∀ r ∈ hs :: rows.map (fun row => row.map stringForm),
      ∀ f ∈ r, '\n' ∉ f.data ∧ '\r' ∉ f.data := by
    intro r hr f hf
    rcases List.mem_cons.mp hr with rfl | hr
    · exact ⟨(hh f hf).2.2.1, (hh f hf).2.2.2⟩
    · obtain ⟨row, hmem, rfl⟩ := List.mem_map.mp hr
      obtain ⟨c, hc, rfl⟩ := List.mem_map.mp hf
      exact ⟨(hcell row hmem c hc).2.1, (hcell row hmem c hc).2.2⟩
  have hparse : parseCSVtext (convertToCSVLocal ⟨hs, rows⟩)
      = hs :: rows.map (fun row => row.map stringForm) := by
    unfold parseCSVtext
    rw [henc, tok_text (hs :: rows.map (fun row => row.map stringForm)) [] hrec_ne hrec_each hrec_ctl]
    simp only [List.nil_append, List.map_map]
    refine map_id_of _ _ (fun r _ => ?_)
    show (r.map (fun f => f.data)).map String.mk = r
    rw [List.map_map]
    exact map_id_of r _ (fun s _ => rfl)
  have hstep : csvIngest (convertToCSVLocal ⟨hs, rows⟩)
      = ⟨hs, processTokRows
          ((rows.map (fun row => row.map stringForm)).map (fun r => r.map JSVal.str))⟩ := by
    simp only [csvIngest, hparse]
  rw [hstep]
  have hM : (rows.map (fun row => row.map stringForm)).map (fun r => r.map JSVal.str)
      = rows.map (fun row => row.map (fun c => JSVal.str (stringForm c))) := by
    rw [List.map_map]
    refine List.map_congr_left (fun row _ => ?_)
    show (row.map stringForm).map JSVal.str = row.map (fun c => JSVal.str (stringForm c))
    rw [List.map_map]
    rfl
  rw [hM]
  have hkeep : ∀ r ∈ rows.map (fun row => row.map (fun c => JSVal.str (stringForm c))),
      r.any (fun c => !isEmptyCell c) = true := by
    intro r hr
    obtain ⟨row, hmem, rfl⟩ := List.mem_map.mp hr
    obtain ⟨c, hc, hne'⟩ := hrow row hmem
    exact List.any_eq_true.mpr
      ⟨JSVal.str (stringForm c), List.mem_map_of_mem _ hc, by simp [isEmptyCell, hne']⟩
  have hsan : ∀ r ∈ rows.map (fun row => row.map (fun c => JSVal.str (stringForm c))),
      r.map sanitize = r := by
    intro r hr
    obtain ⟨row, hmem, rfl⟩ := List.mem_map.mp hr
    refine map_id_of _ _ (fun cell hcell' => ?_)
    obtain ⟨c, _, rfl⟩ := List.mem_map.mp hcell'
    rfl
  have hproc : processTokRows (rows.map (fun row => row.map (fun c => JSVal.str (stringForm c))))
      = rows.map (fun row => row.map (fun c => JSVal.str (stringForm c))) := by
    unfold processTokRows
    rw [List.filter_eq_self.mpr hkeep]
    exact map_id_of _ _ hsan
  rw [hproc]

/-- C6, witness: the amended theorem at the end-to-end dataset of the spec
(headers `name`,`value`; rows `A`,`1` and `B`,`2`). -/
theorem c6_amended_roundtrip_witness :
    csvIngest (convertToCSVLocal ⟨["name", "value"],
        [[JSVal.str "A", JSVal.str "1"], [JSVal.str "B", JSVal.str "2"]]⟩)
      = ⟨["name", "value"], [[JSVal.str "A", JSVal.str "1"], [JSVal.str "B", JSVal.str "2"]]⟩ :=
  c6_amended_roundtrip ⟨["name", "value"],
      [[JSVal.str "A", JSVal.str "1"], [JSVal.str "B", JSVal.str "2"]]⟩
    (by decide) (by decide) (by decide) (by decide)
